import Mathlib

set_option maxRecDepth 100000

/-!
Shallow embedding of the RefrescanteUI command-line dispatcher.

The dispatcher is built from the yargs configuration in src/index.ts: a
pre-parse short circuit for the exact token "--version", the declared
commands (a default command, init, add, remove, upgrade, wipe), the
global help and version flags with their aliases, strict mode, and
demandCommand. The second implementation variant (src/unnamed/part_000)
differs only in the default command, which additionally calls
cli.showHelp() after printing the version line; showHelp defaults to
the error console level, so that help text goes to stderr.

An invocation is modelled as the version string read from package
metadata together with the user argument vector (process arguments with
the interpreter and script paths already stripped). The observable
outcome is the list of stdout lines, the list of stderr lines, and the
exit code.
-/

namespace Refrescante

/-- Observable outcome of one process invocation: lines written to
stdout, lines written to stderr, and the exit code. -/
structure Output where
  stdout : List String
  stderr : List String
  exitCode : Nat
deriving Repr, DecidableEq

/-- The five named commands declared on the yargs instance in
src/index.ts (the default command has no name). -/
def commandNames : List String := ["init", "add", "remove", "upgrade", "wipe"]

/-- A token is treated as an option by the argument parser exactly when
it begins with a dash. -/
def isOptionToken (t : String) : Bool :=
  match t.data with
  | [] => false
  | c :: _ => c = '-'

/-- Drop the leading dashes of an option token, as the parser does when
naming an unknown option in its error message. -/
def stripDashes (t : String) : String :=
  String.mk (t.data.dropWhile (fun c => c = '-'))

/-- Message the parser emits when the demanded positional of add or
remove is absent (the commands demand exactly one positional). -/
def notEnoughArgsMsg : String :=
  "Not enough non-option arguments: got 0, need at least 1"

/-- The two parse-error kinds the configured dispatcher can produce: a
demanded positional is absent, or strict mode rejects a token that
matches no declared command or flag. -/
inductive ParseError where
  | missingRequiredArgument (msg : String)
  | unknownArgument (token : String)
deriving Repr, DecidableEq

/-- The stderr message reported for a parse error. -/
def ParseError.message : ParseError → String
  | .missingRequiredArgument m => m
  | .unknownArgument t => "Unknown argument: " ++ t

/-- The resolved invocation: which handler (or built-in flag behavior)
runs, with its validated parameters. -/
inductive Action where
  | defaultCmd
  | initCmd
  | addCmd (name : String)
  | removeCmd (name : String)
  | upgradeCmd (components : List String)
  | wipeCmd
  | showHelp
  | showVersion
deriving Repr, DecidableEq

/-- The usage line configured with .usage and .scriptName. -/
def usageLine : String := "Usage: refrescante <command> [options]"

/-- The help text assembled from the usage line, the declared commands
with their descriptions, and the global options. -/
def helpText : String :=
  usageLine ++ "\n\n" ++
  "Commands:\n" ++
  "  refrescante          Displays version number  [default]\n" ++
  "  refrescante init     Initialize the RefrescanteUI project in the current directory\n" ++
  "  refrescante add <component-name>  Add a component to the project\n" ++
  "  refrescante remove <component-name>  Remove a component from the project\n" ++
  "  refrescante upgrade [components...]  Upgrade Refrescante package version and optionally specific components or all\n" ++
  "  refrescante wipe     Remove the Refrescante package from the project\n" ++
  "\n" ++
  "Options:\n" ++
  "  -h, --help     Show help  [boolean]\n" ++
  "  -v, --version  Show version number  [boolean]"

/-- Resolve the positional tokens of an invocation to an action, after
the global flags have been handled: the first positional selects the
command, its remaining positionals are validated against that command
declaration (add and remove demand exactly one, upgrade takes a
variadic list, init and wipe take none), and strict mode rejects a
first positional that names no command as well as excess positionals.
With no positional at all the default command runs (demandCommand is
satisfied by the default command, so it never errors). -/
def parseCommand (cmd : String) (rest : List String) : Except ParseError Action :=
  if cmd = "init" then
    match rest with
    | [] => Except.ok Action.initCmd
    | t :: _ => Except.error (ParseError.unknownArgument t)
  else if cmd = "add" then
    match rest with
    | [] => Except.error (ParseError.missingRequiredArgument notEnoughArgsMsg)
    | [n] => Except.ok (Action.addCmd n)
    | _ :: t :: _ => Except.error (ParseError.unknownArgument t)
  else if cmd = "remove" then
    match rest with
    | [] => Except.error (ParseError.missingRequiredArgument notEnoughArgsMsg)
    | [n] => Except.ok (Action.removeCmd n)
    | _ :: t :: _ => Except.error (ParseError.unknownArgument t)
  else if cmd = "upgrade" then
    Except.ok (Action.upgradeCmd rest)
  else if cmd = "wipe" then
    match rest with
    | [] => Except.ok Action.wipeCmd
    | t :: _ => Except.error (ParseError.unknownArgument t)
  else
    Except.error (ParseError.unknownArgument cmd)

/-- With no positional at all the default command runs; otherwise the
first positional selects the command. -/
def parsePositionals : List String → Except ParseError Action
  | [] => Except.ok Action.defaultCmd
  | cmd :: rest => parseCommand cmd rest

/-- The parsing phase of the configured yargs instance: the global help
flag and its alias, then the global version flag and its alias, then
strict-mode rejection of undeclared option tokens, then command
resolution on the positional tokens. Every declared option token is
consumed by the flag checks, so any option token that reaches the
strict check is undeclared. -/
def parse (argv : List String) : Except ParseError Action :=
  if "--help" ∈ argv ∨ "-h" ∈ argv then
    Except.ok Action.showHelp
  else if "--version" ∈ argv ∨ "-v" ∈ argv then
    Except.ok Action.showVersion
  else
    match argv.filter isOptionToken with
    | [] => parsePositionals argv
    | t :: _ => Except.error (ParseError.unknownArgument (stripDashes t))

/-- The handlers of src/index.ts: each prints exactly one line to
stdout and the process exits 0. -/
def runAction (version : String) : Action → Output
  | Action.defaultCmd =>
      ⟨["Refrescante version: " ++ version], [], 0⟩
  | Action.initCmd =>
      ⟨["Initializing RefrescanteUI project..."], [], 0⟩
  | Action.addCmd n =>
      ⟨["Adding component: " ++ n], [], 0⟩
  | Action.removeCmd n =>
      ⟨["Removing component: " ++ n], [], 0⟩
  | Action.upgradeCmd cs =>
      match cs with
      | [] => ⟨["Upgrading Refrescante package and all components..."], [], 0⟩
      | _ :: _ => ⟨["Upgrading components: " ++ String.intercalate ", " cs], [], 0⟩
  | Action.wipeCmd =>
      ⟨["Wiping Refrescante package from the project..."], [], 0⟩
  | Action.showHelp =>
      ⟨[helpText], [], 0⟩
  | Action.showVersion =>
      ⟨[version], [], 0⟩

/-- On a parse error yargs prints the usage text followed by the error
message to stderr and exits 1; no handler runs, so stdout is empty. -/
def errorOutput (e : ParseError) : Output :=
  ⟨[], [helpText, e.message], 1⟩

/-- Run the yargs instance of src/index.ts on the stripped argument
vector: parse, then either dispatch the resolved action or report the
parse error. -/
def yargsRun (version : String) (argv : List String) : Output :=
  match parse argv with
  | Except.ok a => runAction version a
  | Except.error e => errorOutput e

/-- The whole process of src/index.ts: if the exact token "--version"
occurs anywhere in the argument vector, print the version and exit 0
before the yargs instance is even built; otherwise run the parser. -/
def refrescanteCli (version : String) (argv : List String) : Output :=
  if "--version" ∈ argv then ⟨[version], [], 0⟩
  else yargsRun version argv

/-- The handlers of the variant in src/unnamed/part_000: identical to
src/index.ts except that the default command also calls cli.showHelp()
after printing the version line. showHelp prints with the error
console level by default, so the help text is written to stderr while
stdout still carries only the version line. -/
def runActionV0 (version : String) : Action → Output
  | Action.defaultCmd =>
      ⟨["Refrescante version: " ++ version], [helpText], 0⟩
  | a => runAction version a

/-- Run the yargs instance of the src/unnamed/part_000 variant. -/
def yargsRunV0 (version : String) (argv : List String) : Output :=
  match parse argv with
  | Except.ok a => runActionV0 version a
  | Except.error e => errorOutput e

/-- The whole process of the src/unnamed/part_000 variant, with the
same "--version" short circuit as src/index.ts. -/
def refrescanteCliV0 (version : String) (argv : List String) : Output :=
  if "--version" ∈ argv then ⟨[version], [], 0⟩
  else yargsRunV0 version argv

/-! Helper lemmas shared by the claim theorems. -/

/-- A token that is not an option token is distinct from every option
token, so it is not a member of a list of non-option tokens. -/
theorem not_mem_of_all_not_option {argv : List String}
    (h : ∀ s ∈ argv, isOptionToken s = false)
    {t : String} (ht : isOptionToken t = true) : t ∉ argv := by
  intro hm
  rw [h t hm] at ht
  exact Bool.noConfusion ht

/-- Filtering the option tokens out of a vector of non-option tokens
leaves nothing. -/
theorem filter_option_eq_nil {argv : List String}
    (h : ∀ s ∈ argv, isOptionToken s = false) :
    argv.filter isOptionToken = [] := by
  apply List.filter_eq_nil_iff.mpr
  intro a ha
  simp [h a ha]

/-- On a vector free of option tokens, the global flag checks and the
strict option check all pass, and parsing is command resolution on the
positionals. -/
theorem parse_of_all_not_option {argv : List String}
    (h : ∀ s ∈ argv, isOptionToken s = false) :
    parse argv = parsePositionals argv := by
  unfold parse
  rw [if_neg, if_neg, filter_option_eq_nil h]
  · intro hc
    exact hc.elim
      (fun hm => not_mem_of_all_not_option h (by decide) hm)
      (fun hm => not_mem_of_all_not_option h (by decide) hm)
  · intro hc
    exact hc.elim
      (fun hm => not_mem_of_all_not_option h (by decide) hm)
      (fun hm => not_mem_of_all_not_option h (by decide) hm)

/-- When the "--version" short circuit does not fire and parsing
resolves an action, the process output is that of the handler. -/
theorem cli_eq_runAction {argv : List String} {a : Action} (v : String)
    (hv : "--version" ∉ argv) (hp : parse argv = Except.ok a) :
    refrescanteCli v argv = runAction v a := by
  unfold refrescanteCli
  rw [if_neg hv]
  unfold yargsRun
  rw [hp]

/-- When the "--version" short circuit does not fire and parsing
fails, the process output is the error report. -/
theorem cli_eq_errorOutput {argv : List String} {e : ParseError} (v : String)
    (hv : "--version" ∉ argv) (hp : parse argv = Except.error e) :
    refrescanteCli v argv = errorOutput e := by
  unfold refrescanteCli
  rw [if_neg hv]
  unfold yargsRun
  rw [hp]

/-- Every handler exits 0. -/
theorem runAction_exitCode (v : String) : ∀ a : Action, (runAction v a).exitCode = 0
  | Action.defaultCmd => rfl
  | Action.initCmd => rfl
  | Action.addCmd _ => rfl
  | Action.removeCmd _ => rfl
  | Action.upgradeCmd [] => rfl
  | Action.upgradeCmd (_ :: _) => rfl
  | Action.wipeCmd => rfl
  | Action.showHelp => rfl
  | Action.showVersion => rfl

/-- Command resolution on a nonempty positional vector dispatches on
its head. -/
theorem parsePositionals_cons (cmd : String) (rest : List String) :
    parsePositionals (cmd :: rest) = parseCommand cmd rest := rfl

/-- The upgrade command resolves with its trailing positionals as the
component list. -/
theorem parse_upgrade (names : List String)
    (h : ∀ s ∈ names, isOptionToken s = false) :
    parse ("upgrade" :: names) = Except.ok (Action.upgradeCmd names) := by
  have hall : ∀ s ∈ ("upgrade" :: names), isOptionToken s = false := by
    intro s hs
    rcases List.mem_cons.mp hs with h1 | h2
    · rw [h1]; decide
    · exact h s h2
  rw [parse_of_all_not_option hall, parsePositionals_cons]
  unfold parseCommand
  rw [if_neg (by decide), if_neg (by decide), if_neg (by decide), if_pos rfl]

/-- The add command with exactly one further positional resolves to its
handler with that positional as the component name. -/
theorem parse_add (name : String) (h : isOptionToken name = false) :
    parse ["add", name] = Except.ok (Action.addCmd name) := by
  have hall : ∀ s ∈ ["add", name], isOptionToken s = false := by
    intro s hs
    rcases List.mem_cons.mp hs with h1 | h2
    · rw [h1]; decide
    · rw [List.mem_singleton.mp h2]; exact h
  rw [parse_of_all_not_option hall, parsePositionals_cons]
  unfold parseCommand
  rw [if_neg (by decide), if_pos rfl]

/-- The remove command with exactly one further positional resolves to
its handler with that positional as the component name. -/
theorem parse_remove (name : String) (h : isOptionToken name = false) :
    parse ["remove", name] = Except.ok (Action.removeCmd name) := by
  have hall : ∀ s ∈ ["remove", name], isOptionToken s = false := by
    intro s hs
    rcases List.mem_cons.mp hs with h1 | h2
    · rw [h1]; decide
    · rw [List.mem_singleton.mp h2]; exact h
  rw [parse_of_all_not_option hall, parsePositionals_cons]
  unfold parseCommand
  rw [if_neg (by decide), if_neg (by decide), if_pos rfl]

/-- Command resolution yields the default command only on the empty
positional vector. -/
theorem parsePositionals_eq_default {argv : List String}
    (h : parsePositionals argv = Except.ok Action.defaultCmd) : argv = [] := by
  cases argv with
  | nil => rfl
  | cons cmd rest =>
    exfalso
    rw [parsePositionals_cons] at h
    unfold parseCommand at h
    split_ifs at h <;>
      first
      | simp at h
      | (cases rest with
         | nil => simp at h
         | cons a as => cases as <;> simp at h)

/-- Parsing yields the default command only on the empty argument
vector. -/
theorem parse_eq_default {argv : List String}
    (h : parse argv = Except.ok Action.defaultCmd) : argv = [] := by
  unfold parse at h
  split_ifs at h
  · simp at h
  · simp at h
  · cases hf : argv.filter isOptionToken with
    | nil =>
      rw [hf] at h
      exact parsePositionals_eq_default h
    | cons t ts =>
      rw [hf] at h
      simp at h

/-! Claim theorems. -/

/-- Claim C1: invoking add or remove with zero positional arguments is
a MissingRequiredArgument parse error: the process exits 1, stderr
carries the missing-argument message (with the help text), and the
handler never runs, so stdout is empty. -/
theorem addRemoveMissingPositional (v : String) :
    refrescanteCli v ["add"] = ⟨[], [helpText, notEnoughArgsMsg], 1⟩ ∧
    refrescanteCli v ["remove"] = ⟨[], [helpText, notEnoughArgsMsg], 1⟩ ∧
    parse ["add"] =
      Except.error (ParseError.missingRequiredArgument notEnoughArgsMsg) ∧
    parse ["remove"] =
      Except.error (ParseError.missingRequiredArgument notEnoughArgsMsg) :=
  ⟨rfl, rfl, rfl, rfl⟩

/-- Claim C2: upgrade with a nonempty positional list prints exactly
the named components in input order joined by a comma and a space,
upgrade with no positional prints the all-components line; both exit 0
with stdout that single line and empty stderr. -/
theorem upgradeHandlerOutput (v : String) (names : List String)
    (h : ∀ s ∈ names, isOptionToken s = false) :
    (names = [] → refrescanteCli v ("upgrade" :: names) =
      ⟨["Upgrading Refrescante package and all components..."], [], 0⟩) ∧
    (names ≠ [] → refrescanteCli v ("upgrade" :: names) =
      ⟨["Upgrading components: " ++ String.intercalate ", " names], [], 0⟩) := by
  have hall : ∀ s ∈ ("upgrade" :: names), isOptionToken s = false := by
    intro s hs
    rcases List.mem_cons.mp hs with h1 | h2
    · rw [h1]; decide
    · exact h s h2
  have hv : "--version" ∉ ("upgrade" :: names) :=
    not_mem_of_all_not_option hall (by decide)
  have hc := cli_eq_runAction v hv (parse_upgrade names h)
  constructor
  · intro hnil
    subst hnil
    rw [hc]
    rfl
  · intro hne
    rw [hc]
    cases names with
    | nil => exact absurd rfl hne
    | cons n ns => rfl

/-- Witness for C2 at the concrete invocation upgrade button input. -/
theorem upgradeHandlerOutput_witness :
    (∀ s ∈ (["button", "input"] : List String), isOptionToken s = false) ∧
    refrescanteCli "1.0.0" ["upgrade", "button", "input"] =
      ⟨["Upgrading components: button, input"], [], 0⟩ :=
  ⟨by decide,
   ((upgradeHandlerOutput "1.0.0" ["button", "input"] (by decide)).2
     (by decide)).trans (by decide)⟩

/-- Claim C3: the empty argument vector runs the default command: one
stdout line with the version, exit 0; demandCommand is satisfied by
the default command, so no error is raised. -/
theorem emptyInvocationRunsDefault (v : String) :
    refrescanteCli v [] = ⟨["Refrescante version: " ++ v], [], 0⟩ ∧
    parse [] = Except.ok Action.defaultCmd :=
  ⟨rfl, rfl⟩

/-- Claim C4: both version flags print exactly the version string from
the package metadata and nothing else to stdout, and exit 0. -/
theorem versionFlagsPrintVersion (v : String) :
    refrescanteCli v ["--version"] = ⟨[v], [], 0⟩ ∧
    refrescanteCli v ["-v"] = ⟨[v], [], 0⟩ :=
  ⟨rfl, rfl⟩

/-- Claim C5: a single token that matches no declared command and no
flag is rejected by strict mode: exit 1, empty stdout, and stderr
carries the unknown-argument message naming the token. -/
theorem unknownTokenRejected (v t : String)
    (hdash : isOptionToken t = false)
    (hcmd : t ∉ commandNames) :
    refrescanteCli v [t] =
      ⟨[], [helpText, "Unknown argument: " ++ t], 1⟩ := by
  have hall : ∀ s ∈ [t], isOptionToken s = false := by
    intro s hs
    rw [List.mem_singleton.mp hs]
    exact hdash
  have hv : "--version" ∉ [t] := not_mem_of_all_not_option hall (by decide)
  have h1 : t ≠ "init" := fun hEq => hcmd (by rw [hEq]; decide)
  have h2 : t ≠ "add" := fun hEq => hcmd (by rw [hEq]; decide)
  have h3 : t ≠ "remove" := fun hEq => hcmd (by rw [hEq]; decide)
  have h4 : t ≠ "upgrade" := fun hEq => hcmd (by rw [hEq]; decide)
  have h5 : t ≠ "wipe" := fun hEq => hcmd (by rw [hEq]; decide)
  have hp : parse [t] = Except.error (ParseError.unknownArgument t) := by
    rw [parse_of_all_not_option hall, parsePositionals_cons]
    unfold parseCommand
    rw [if_neg h1, if_neg h2, if_neg h3, if_neg h4, if_neg h5]
  rw [cli_eq_errorOutput v hv hp]
  rfl

/-- Witness for C5 at the concrete token invalid-command. -/
theorem unknownTokenRejected_witness :
    isOptionToken "invalid-command" = false ∧
    "invalid-command" ∉ commandNames ∧
    refrescanteCli "1.0.0" ["invalid-command"] =
      ⟨[], [helpText, "Unknown argument: invalid-command"], 1⟩ :=
  ⟨by decide, by decide,
   (unknownTokenRejected "1.0.0" "invalid-command" (by decide)
     (by decide)).trans (by decide)⟩

/-- Claim C6: every invocation either exits 0, or fails with a parse
error that is one of exactly two kinds, MissingRequiredArgument or
UnknownArgument; on the error path no handler output reaches stdout,
the message is reported on stderr, and the exit code is 1. -/
theorem errorTaxonomy (v : String) (argv : List String) :
    (refrescanteCli v argv).exitCode = 0 ∨
    (∃ e : ParseError,
      parse argv = Except.error e ∧
      refrescanteCli v argv = ⟨[], [helpText, e.message], 1⟩ ∧
      ((∃ m, e = ParseError.missingRequiredArgument m) ∨
       (∃ t, e = ParseError.unknownArgument t))) := by
  by_cases hv : "--version" ∈ argv
  · left
    unfold refrescanteCli
    rw [if_pos hv]
  · cases hp : parse argv with
    | ok a =>
      left
      rw [cli_eq_runAction v hv hp]
      exact runAction_exitCode v a
    | error e =>
      right
      refine ⟨e, rfl, cli_eq_errorOutput v hv hp, ?_⟩
      cases e with
      | missingRequiredArgument m => exact Or.inl ⟨m, rfl⟩
      | unknownArgument t => exact Or.inr ⟨t, rfl⟩

/-- Claim C7: each valid invocation exits 0 and writes exactly one
stdout line, the literal line of the interface table. -/
theorem validCommandOutputs (v name : String) (names : List String)
    (hname : isOptionToken name = false)
    (hnames : ∀ s ∈ names, isOptionToken s = false) :
    refrescanteCli v [] = ⟨["Refrescante version: " ++ v], [], 0⟩ ∧
    refrescanteCli v ["init"] =
      ⟨["Initializing RefrescanteUI project..."], [], 0⟩ ∧
    refrescanteCli v ["add", name] =
      ⟨["Adding component: " ++ name], [], 0⟩ ∧
    refrescanteCli v ["remove", name] =
      ⟨["Removing component: " ++ name], [], 0⟩ ∧
    refrescanteCli v ["upgrade"] =
      ⟨["Upgrading Refrescante package and all components..."], [], 0⟩ ∧
    (names ≠ [] → refrescanteCli v ("upgrade" :: names) =
      ⟨["Upgrading components: " ++ String.intercalate ", " names], [], 0⟩) ∧
    refrescanteCli v ["wipe"] =
      ⟨["Wiping Refrescante package from the project..."], [], 0⟩ := by
  have hvAdd : "--version" ∉ ["add", name] := by
    have hall : ∀ s ∈ ["add", name], isOptionToken s = false := by
      intro s hs
      rcases List.mem_cons.mp hs with h1 | h2
      · rw [h1]; decide
      · rw [List.mem_singleton.mp h2]; exact hname
    exact not_mem_of_all_not_option hall (by decide)
  have hvRem : "--version" ∉ ["remove", name] := by
    have hall : ∀ s ∈ ["remove", name], isOptionToken s = false := by
      intro s hs
      rcases List.mem_cons.mp hs with h1 | h2
      · rw [h1]; decide
      · rw [List.mem_singleton.mp h2]; exact hname
    exact not_mem_of_all_not_option hall (by decide)
  have hvUp : "--version" ∉ ("upgrade" :: names) := by
    have hall : ∀ s ∈ ("upgrade" :: names), isOptionToken s = false := by
      intro s hs
      rcases List.mem_cons.mp hs with h1 | h2
      · rw [h1]; decide
      · exact hnames s h2
    exact not_mem_of_all_not_option hall (by decide)
  refine ⟨rfl, rfl, ?_, ?_, rfl, ?_, rfl⟩
  · rw [cli_eq_runAction v hvAdd (parse_add name hname)]
    rfl
  · rw [cli_eq_runAction v hvRem (parse_remove name hname)]
    rfl
  · intro hne
    rw [cli_eq_runAction v hvUp (parse_upgrade names hnames)]
    cases names with
    | nil => exact absurd rfl hne
    | cons n ns => rfl

/-- Witness for C7 at concrete component names. -/
theorem validCommandOutputs_witness :
    isOptionToken "button" = false ∧
    (∀ s ∈ (["button", "input"] : List String), isOptionToken s = false) ∧
    refrescanteCli "1.0.0" ["add", "button"] =
      ⟨["Adding component: button"], [], 0⟩ :=
  ⟨by decide, by decide,
   ((validCommandOutputs "1.0.0" "button" ["button", "input"]
     (by decide) (by decide)).2.2.1).trans (by decide)⟩

/-- Claim C8: the dispatcher is deterministic: identical argument
vectors under the same package version give byte-identical stdout and
the same exit code. The model reads nothing but the version string and
the argument vector, so the outcome is a function of the two. -/
theorem dispatchDeterministic (v : String) (argv1 argv2 : List String)
    (h : argv1 = argv2) :
    (refrescanteCli v argv1).stdout = (refrescanteCli v argv2).stdout ∧
    (refrescanteCli v argv1).exitCode = (refrescanteCli v argv2).exitCode := by
  subst h
  exact ⟨rfl, rfl⟩

/-- Witness for C8 at a concrete repeated invocation. -/
theorem dispatchDeterministic_witness :
    (refrescanteCli "1.0.0" ["init"]).stdout =
      (refrescanteCli "1.0.0" ["init"]).stdout ∧
    (refrescanteCli "1.0.0" ["init"]).exitCode =
      (refrescanteCli "1.0.0" ["init"]).exitCode :=
  dispatchDeterministic "1.0.0" ["init"] ["init"] rfl

/-- Claim C9 as stated is false at the empty invocation: the part_000
variant does not print the help text after the version line on stdout.
Its stdout is identical to that of src/index.ts, and the help text the
default command shows goes to stderr instead, because cli.showHelp()
prints with the error console level by default. -/
theorem variantStdoutCounterexample :
    (refrescanteCliV0 "1.0.0" []).stdout ≠
      (refrescanteCli "1.0.0" []).stdout ++ [helpText] ∧
    (refrescanteCliV0 "1.0.0" []).stdout = (refrescanteCli "1.0.0" []).stdout ∧
    (refrescanteCliV0 "1.0.0" []).stderr =
      (refrescanteCli "1.0.0" []).stderr ++ [helpText] := by
  refine ⟨?_, rfl, rfl⟩
  decide

/-- Claim C9 amended: the src/index.ts dispatcher and the
src/unnamed/part_000 variant are observationally equivalent on every
nonempty argument vector; on the empty vector stdout and exit code are
identical and the variants disagree only in that part_000 additionally
writes the full help text to stderr after the version line is printed. -/
theorem variantObservationalEquiv (v : String) :
    (∀ argv : List String, argv ≠ [] →
      refrescanteCliV0 v argv = refrescanteCli v argv) ∧
    (refrescanteCliV0 v []).stdout = (refrescanteCli v []).stdout ∧
    (refrescanteCliV0 v []).stderr = (refrescanteCli v []).stderr ++ [helpText] ∧
    (refrescanteCliV0 v []).exitCode = (refrescanteCli v []).exitCode := by
  refine ⟨?_, rfl, rfl, rfl⟩
  intro argv hne
  unfold refrescanteCliV0 refrescanteCli
  by_cases hv : "--version" ∈ argv
  · rw [if_pos hv, if_pos hv]
  · rw [if_neg hv, if_neg hv]
    unfold yargsRunV0 yargsRun
    cases hp : parse argv with
    | error e => rfl
    | ok a =>
      have ha : a ≠ Action.defaultCmd := by
        intro hd
        exact hne (parse_eq_default (hd ▸ hp))
      cases a with
      | defaultCmd => exact absurd rfl ha
      | initCmd => rfl
      | addCmd n => rfl
      | removeCmd n => rfl
      | upgradeCmd cs => rfl
      | wipeCmd => rfl
      | showHelp => rfl
      | showVersion => rfl

/-- Witness for C9 at a concrete nonempty invocation. -/
theorem variantObservationalEquiv_witness :
    (["init"] : List String) ≠ [] ∧
    refrescanteCliV0 "1.0.0" ["init"] = refrescanteCli "1.0.0" ["init"] :=
  ⟨by decide, (variantObservationalEquiv "1.0.0").1 ["init"] (by decide)⟩

/-- Claim C10: an argument vector containing the exact token
"--version" anywhere is short-circuited before the parser: stdout is
only the version and the exit code 0, so no handler runs and the other
tokens are ignored; without that token the process is exactly the
parser run, and the short flag -v resolves through the parser. -/
theorem versionShortCircuit (v : String) :
    (∀ argv : List String, "--version" ∈ argv →
      refrescanteCli v argv = ⟨[v], [], 0⟩) ∧
    (∀ argv : List String, "--version" ∉ argv →
      refrescanteCli v argv = yargsRun v argv) ∧
    parse ["-v"] = Except.ok Action.showVersion ∧
    refrescanteCli v ["add", "button", "--version"] = ⟨[v], [], 0⟩ := by
  refine ⟨?_, ?_, rfl, rfl⟩
  · intro argv h
    unfold refrescanteCli
    rw [if_pos h]
  · intro argv h
    unfold refrescanteCli
    rw [if_neg h]

/-- Witness for C10 at a concrete vector with a trailing version
flag. -/
theorem versionShortCircuit_witness :
    "--version" ∈ (["add", "button", "--version"] : List String) ∧
    refrescanteCli "1.0.0" ["add", "button", "--version"] =
      ⟨["1.0.0"], [], 0⟩ :=
  ⟨by decide,
   (versionShortCircuit "1.0.0").1 ["add", "button", "--version"] (by decide)⟩

end Refrescante
